import Mathlib

/-!
# Gallery service embedding

A shallow embedding of the image-upload gallery service, covering both
implementation variants in the repository:

* the blocking-store variant (`backend/app.py` + `backend/aws_services.py`,
  Flask over S3/DynamoDB), embedded in namespaces `Aws` and `App`;
* the async-document-store variant (`backend/server.py`, FastAPI over
  MongoDB and a local uploads directory), embedded in namespace `Server`.

Binary content is modelled as `List Nat` (one entry per byte).  The external
stores are modelled as explicit state (`AwsState`, `FState`) together with a
failure-injection environment (`AwsEnv`) standing for the `ClientError`
exceptions that the `aws_services` wrappers catch.  Nondeterministic inputs
of the handlers (generated UUIDs, the current UTC timestamp) are passed as
explicit arguments.  Python's `str.strip` is modelled by `String.trim`
(they agree on the ASCII whitespace appearing in this code base).
-/

namespace Gallery

/-- Raw binary content, one `Nat` per byte. -/
abbrev Bytes := List Nat

/-- One part of a multipart upload: the client-supplied filename, the
declared content type (`None` when the client sent none) and the raw bytes. -/
structure FilePart where
  filename : String
  contentType : Option String
  content : Bytes
deriving DecidableEq

/-- The multipart form of the blocking variant's upload endpoint.  `file` is
`none` when the `file` part is absent from `request.files`; the string
fields are `none` when the corresponding form field is absent. -/
structure UploadForm where
  file : Option FilePart
  uploader : Option String
  tags : Option String
  description : Option String
deriving DecidableEq

/-- The metadata record persisted to DynamoDB by `app.py` (the `metadata`
dict of `upload_image`, lines 90-100).  Note that it includes the `s3_key`
storage key. -/
structure Item where
  id : String
  filename : String
  s3_key : String
  file_size : Nat
  file_type : String
  uploader : String
  tags : List String
  description : Option String
  upload_date : String
deriving DecidableEq

/-- An object held in the S3 blob store: key, bytes, and the content type
recorded at `put` time. -/
structure S3Obj where
  key : String
  data : Bytes
  contentType : String
deriving DecidableEq

/-- The state of the two external stores used by the blocking variant. -/
structure AwsState where
  s3 : List S3Obj
  ddb : List Item
deriving DecidableEq

/-- Failure injection for the `aws_services` wrappers: each flag states
whether the corresponding store call succeeds or raises `ClientError`
(which every wrapper catches, turning it into `False`/`None`/`[]`). -/
structure AwsEnv where
  s3PutOk : Bool
  s3GetOk : Bool
  s3DeleteOk : Bool
  ddbPutOk : Bool
  ddbGetOk : Bool
  ddbScanOk : Bool
  ddbDeleteOk : Bool
deriving DecidableEq

/-- The HTTP outcome of a handler: an error with a status code and message
body, or a success with a status code and payload. -/
inductive Resp (α : Type) where
  | err : Nat → String → Resp α
  | ok : Nat → α → Resp α
deriving DecidableEq

/-- Python truthiness of an optional string: `None` and the empty string
are falsy, everything else is truthy. -/
def truthy : Option String → Bool
  | none => false
  | some s => s != ""

/-- Lexicographic comparison of character lists by code point, mirroring
how Python compares strings.  Written by structural recursion so that the
kernel can evaluate it on concrete inputs. -/
def ltCh : List Char → List Char → Bool
  | [], [] => false
  | [], _ :: _ => true
  | _ :: _, [] => false
  | a :: as, b :: bs => if a < b then true else if b < a then false else ltCh as bs

/-- Python's `a < b` on strings. -/
def pyLt (a b : String) : Bool := ltCh a.toList b.toList

/-- Python's `a <= b` on strings. -/
def pyLe (a b : String) : Bool := !pyLt b a

/-- Python's `str.split(sep)` for a one-character separator: split at every
occurrence, keeping empty segments (`''.split(',') == ['']`). -/
def splitOnChar (sep : Char) : List Char → List (List Char)
  | [] => [[]]
  | c :: cs =>
    match splitOnChar sep cs with
    | [] => [[]]
    | t :: ts => if c = sep then [] :: t :: ts else (c :: t) :: ts

/-- Python's `tags.split(',')`. -/
def pySplit (sep : Char) (s : String) : List String :=
  (splitOnChar sep s.toList).map String.mk

/-- Python's `str.strip()` with no argument: remove leading and trailing
whitespace (the tags in this code base only carry ASCII whitespace). -/
def pyStrip (s : String) : String :=
  String.mk (((s.toList.dropWhile Char.isWhitespace).reverse.dropWhile
    Char.isWhitespace).reverse)

/-- Python's `s.startswith(p)`. -/
def pyStartsWith (s p : String) : Bool := p.toList.isPrefixOf s.toList

/-- Tag parsing shared by both variants:
`[tag.strip() for tag in tags.split(',') if tag.strip()] if tags else []`. -/
def parse_tags (tags : String) : List String :=
  if tags = "" then []
  else ((pySplit ',' tags).map pyStrip).filter (fun t => t != "")

/-- Storage-key extension derivation of `app.py` line 73:
`file.filename.rsplit('.', 1)[1].lower() if '.' in file.filename else 'jpg'`. -/
def file_extension (filename : String) : String :=
  let cs := filename.toList
  if cs.contains '.' then
    String.mk ((cs.reverse.takeWhile (fun c => c != '.')).reverse.map Char.toLower)
  else "jpg"

namespace Aws

/-- `AWSServices.upload_to_s3`: writes the object (overwriting any object
under the same key) and returns `true`, or returns `false` on `ClientError`. -/
def upload_to_s3 (env : AwsEnv) (st : AwsState) (file_name : String)
    (data : Bytes) (content_type : String) : AwsState × Bool :=
  if env.s3PutOk then
    ({ st with s3 := ⟨file_name, data, content_type⟩ ::
        st.s3.filter (fun o => o.key != file_name) }, true)
  else (st, false)

/-- `AWSServices.download_from_s3`: returns the bytes and content type, or
`(None, None)` on `ClientError` (including `NoSuchKey` for an absent key). -/
def download_from_s3 (env : AwsEnv) (st : AwsState) (file_name : String) :
    Option Bytes × Option String :=
  if env.s3GetOk then
    match st.s3.find? (fun o => o.key == file_name) with
    | some o => (some o.data, some o.contentType)
    | none => (none, none)
  else (none, none)

/-- `AWSServices.delete_from_s3`: removes the object and returns `true`, or
returns `false` on `ClientError`. -/
def delete_from_s3 (env : AwsEnv) (st : AwsState) (file_name : String) :
    AwsState × Bool :=
  if env.s3DeleteOk then
    ({ st with s3 := st.s3.filter (fun o => o.key != file_name) }, true)
  else (st, false)

/-- `AWSServices.put_item`: inserts (or overwrites by primary key `id`) the
item and returns `true`, or returns `false` on `ClientError`. -/
def put_item (env : AwsEnv) (st : AwsState) (item : Item) : AwsState × Bool :=
  if env.ddbPutOk then
    ({ st with ddb := item :: st.ddb.filter (fun i => i.id != item.id) }, true)
  else (st, false)

/-- `AWSServices.get_item`: the point lookup helper.  It returns `None`
both when no item has the key and when the read raises `ClientError`. -/
def get_item (env : AwsEnv) (st : AwsState) (image_id : String) : Option Item :=
  if env.ddbGetOk then st.ddb.find? (fun i => i.id == image_id) else none

/-- `AWSServices.scan_items`: the full-table scan, returning `[]` on
`ClientError`. -/
def scan_items (env : AwsEnv) (st : AwsState) : List Item :=
  if env.ddbScanOk then st.ddb else []

/-- `AWSServices.delete_item`: removes the item and returns `true`, or
returns `false` on `ClientError`. -/
def delete_item (env : AwsEnv) (st : AwsState) (image_id : String) :
    AwsState × Bool :=
  if env.ddbDeleteOk then
    ({ st with ddb := st.ddb.filter (fun i => i.id != image_id) }, true)
  else (st, false)

end Aws

/-- The JSON body of a successful upload in the blocking variant
(`app.py` lines 120-130): the enumerated metadata fields plus the
synthesized download URL, with no `s3_key`. -/
structure UploadResponse where
  id : String
  filename : String
  file_size : Nat
  file_type : String
  uploader : String
  tags : List String
  description : Option String
  upload_date : String
  url : String
deriving DecidableEq

/-- Query parameters of the list endpoint; `none` models an absent
query-string parameter. -/
structure ListQuery where
  date_from : Option String
  date_to : Option String
  uploader : Option String
  tags : Option String
deriving DecidableEq

/-- The payload of the blocking variant's file download: bytes, the
mimetype passed to `send_file`, the `as_attachment` flag and the suggested
download name. -/
structure FileResp where
  data : Bytes
  mimetype : String
  as_attachment : Bool
  download_name : String
deriving DecidableEq

/-- The JSON body of a successful delete in the blocking variant. -/
structure DeleteResp where
  message : String
  id : String
deriving DecidableEq

/-- The synthesized download URL attached to list items
(`f"/api/images/{item['id']}/file"`). -/
def item_url (it : Item) : String := "/api/images/" ++ it.id ++ "/file"

namespace App

/-- `upload_image` of `app.py` (lines 39-134).  `image_id` stands for the
generated `uuid.uuid4()` and `upload_date` for `datetime.now(timezone.utc)
.isoformat()`.  The fire-and-forget Lambda invocation (lines 108-117) is
caught-and-logged in the source and does not affect the modelled state. -/
def upload_image (env : AwsEnv) (image_id upload_date : String)
    (st : AwsState) (form : UploadForm) : AwsState × Resp UploadResponse :=
  match form.file with
  | none => (st, .err 400 "No file provided")
  | some file =>
    if file.filename = "" then (st, .err 400 "No file selected")
    else
      match file.contentType with
      | none => (st, .err 400 "Only image files are allowed")
      | some ct =>
        if !pyStartsWith ct "image/" then (st, .err 400 "Only image files are allowed")
        else
          match form.uploader with
          | none => (st, .err 400 "Uploader name is required")
          | some uploader =>
            if uploader = "" then (st, .err 400 "Uploader name is required")
            else
              let tags := form.tags.getD ""
              let s3_key := image_id ++ "." ++ file_extension file.filename
              let res1 := Aws.upload_to_s3 env st s3_key file.content ct
              if !res1.2 then (res1.1, .err 500 "Failed to upload image to S3")
              else
                let file_size := file.content.length
                let tags_list := parse_tags tags
                let metadata : Item :=
                  ⟨image_id, file.filename, s3_key, file_size, ct, uploader,
                    tags_list, form.description, upload_date⟩
                let res2 := Aws.put_item env res1.1 metadata
                if !res2.2 then
                  let res3 := Aws.delete_from_s3 env res2.1 s3_key
                  (res3.1, .err 500 "Failed to save metadata to DynamoDB")
                else
                  (res2.1, .ok 201
                    ⟨image_id, file.filename, file_size, ct, uploader,
                      tags_list, form.description, upload_date,
                      "/api/images/" ++ image_id ++ "/file"⟩)

/-- The per-item keep condition of the filtering loop in `list_images`
(`app.py` lines 159-177): an item survives when no `continue` fires. -/
def keep_item (q : ListQuery) (item : Item) : Bool :=
  (!(truthy q.date_from && pyLt item.upload_date (q.date_from.getD ""))) &&
  (!(truthy q.date_to && pyLt (q.date_to.getD "") item.upload_date)) &&
  (!(truthy q.uploader && item.uploader != q.uploader.getD "")) &&
  (!(truthy q.tags &&
      !((parse_tags (q.tags.getD "")).any (fun t => item.tags.contains t))))

end App

/-- The established correspondence between the executable comparison and
the mathematical string order. -/
theorem ltCh_iff (as bs : List Char) : ltCh as bs = true ↔ as < bs := by
  induction as generalizing bs with
  | nil =>
    cases bs with
    | nil =>
      simp only [ltCh, Bool.false_eq_true, false_iff]
      intro h; cases h
    | cons b bs =>
      simp only [ltCh, true_iff]
      exact List.Lex.nil
  | cons a as ih =>
    cases bs with
    | nil =>
      simp only [ltCh, Bool.false_eq_true, false_iff]
      intro h; cases h
    | cons b bs =>
      by_cases hab : a < b
      · simp only [ltCh, if_pos hab, true_iff]
        exact List.Lex.rel hab
      · by_cases hba : b < a
        · simp only [ltCh, if_neg hab, if_pos hba, Bool.false_eq_true, false_iff]
          intro h
          cases h with
          | rel h => exact hab h
          | cons h => exact lt_irrefl a hba
        · have heq : a = b := le_antisymm (le_of_not_lt hba) (le_of_not_lt hab)
          subst heq
          simp only [ltCh, if_neg hab, if_neg hba, ih bs]
          constructor
          · intro h; exact List.Lex.cons h
          · intro h
            cases h with
            | rel h => exact absurd h hab
            | cons h => exact h

/-- `pyLt` decides the string order. -/
theorem pyLt_iff (a b : String) : pyLt a b = true ↔ a < b := by
  rw [String.lt_iff_toList_lt]
  exact ltCh_iff a.toList b.toList

/-- `pyLe` decides the reflexive string order. -/
theorem pyLe_iff (a b : String) : pyLe a b = true ↔ a ≤ b := by
  unfold pyLe
  cases h : pyLt b a with
  | false =>
    simp only [Bool.not_false, true_iff]
    exact le_of_not_lt (fun hlt => by simp [(pyLt_iff b a).mpr hlt] at h)
  | true =>
    simp only [Bool.not_true, Bool.false_eq_true, false_iff, not_le]
    exact (pyLt_iff b a).mp h

/-- Newest-first order on items: `a` precedes `b` when `b`'s upload date is
at most `a`'s.  `List.insertionSort` with this relation computes exactly
what Python's stable `list.sort(key=..., reverse=True)` computes. -/
def itemLe (a b : Item) : Prop := pyLe b.upload_date a.upload_date = true

instance : DecidableRel itemLe := fun _a _b =>
  inferInstanceAs (Decidable (_ = true))

instance : IsTotal Item itemLe :=
  ⟨fun a b => by
    unfold itemLe
    rcases le_total b.upload_date a.upload_date with h | h
    · exact Or.inl ((pyLe_iff _ _).mpr h)
    · exact Or.inr ((pyLe_iff _ _).mpr h)⟩

instance : IsTrans Item itemLe :=
  ⟨fun _ _ _ h1 h2 => (pyLe_iff _ _).mpr
    (le_trans ((pyLe_iff _ _).mp h2) ((pyLe_iff _ _).mp h1))⟩

namespace App

/-- `list_images` of `app.py` (lines 137-190): scan, client-side filter,
stable sort by `upload_date` descending, then decorate each surviving item
with its download URL. -/
def list_images (env : AwsEnv) (st : AwsState) (q : ListQuery) :
    Resp (List (Item × String)) :=
  let items := Aws.scan_items env st
  let filtered := items.filter (keep_item q)
  let sorted := List.insertionSort itemLe filtered
  .ok 200 (sorted.map (fun it => (it, item_url it)))

/-- `get_image` of `app.py` (lines 193-209): point lookup, 404 when the
helper returns `None`, otherwise the stored item with the URL added. -/
def get_image (env : AwsEnv) (st : AwsState) (image_id : String) :
    Resp (Item × String) :=
  match Aws.get_item env st image_id with
  | none => .err 404 "Image not found"
  | some item => .ok 200 (item, "/api/images/" ++ image_id ++ "/file")

/-- `download_image` of `app.py` (lines 212-243).  Note the Python guard
`if not file_data:` is falsy both for `None` (failed read) and for the
empty byte string, so a successful read of zero bytes also takes the 500
branch. -/
def download_image (env : AwsEnv) (st : AwsState) (image_id : String) :
    Resp FileResp :=
  match Aws.get_item env st image_id with
  | none => .err 404 "Image not found"
  | some item =>
    match Aws.download_from_s3 env st item.s3_key with
    | (some file_data, content_type) =>
      if file_data.isEmpty then .err 500 "Failed to download image from S3"
      else .ok 200 ⟨file_data, content_type.getD "", false, item.filename⟩
    | (none, _) => .err 500 "Failed to download image from S3"

/-- `delete_image` of `app.py` (lines 246-275): lookup, best-effort blob
delete (failure only logged), then record delete whose failure is a 500. -/
def delete_image (env : AwsEnv) (st : AwsState) (image_id : String) :
    AwsState × Resp DeleteResp :=
  match Aws.get_item env st image_id with
  | none => (st, .err 404 "Image not found")
  | some item =>
    let res1 := Aws.delete_from_s3 env st item.s3_key
    let res2 := Aws.delete_item env res1.1 image_id
    if !res2.2 then (res2.1, .err 500 "Failed to delete image metadata")
    else (res2.1, .ok 200 ⟨"Image deleted successfully", image_id⟩)

end App

/-- A MongoDB document of the async variant (`server.py` line 113-115):
`ImageMetadata.model_dump()` with `upload_date` rendered as a string and
the on-disk `file_path` added. -/
structure FDoc where
  id : String
  filename : String
  file_size : Nat
  file_type : String
  uploader : String
  tags : List String
  description : Option String
  upload_date : String
  file_path : String
deriving DecidableEq

/-- State of the async variant: the `uploads/` directory (path to bytes)
and the `images` document collection in insertion order. -/
structure FState where
  files : List (String × Bytes)
  db : List FDoc
deriving DecidableEq

/-- The `ImageResponse` pydantic model of `server.py` (lines 50-61): the
wire format of the async variant's upload, list, and get endpoints.  It has
no `file_path` field, so the storage path never reaches clients there. -/
structure FResponse where
  id : String
  filename : String
  file_size : Nat
  file_type : String
  uploader : String
  tags : List String
  description : Option String
  upload_date : String
  url : String
deriving DecidableEq

/-- `pathlib.Path(name).suffix`: the substring from the last dot, unless
that dot is the first character or the last character of the name. -/
def path_suffix (name : String) : String :=
  let cs := name.toList
  let n := cs.length
  let idxs := (List.range n).filter (fun i => cs.getD i ' ' == '.')
  match idxs.getLast? with
  | some i => if 0 < i ∧ i + 1 < n then String.mk (cs.drop i) else ""
  | none => ""

/-- Newest-first order on documents, mirroring `sort("upload_date", -1)`. -/
def fdocLe (a b : FDoc) : Prop := pyLe b.upload_date a.upload_date = true

instance : DecidableRel fdocLe := fun _a _b =>
  inferInstanceAs (Decidable (_ = true))

instance : IsTotal FDoc fdocLe :=
  ⟨fun a b => by
    unfold fdocLe
    rcases le_total b.upload_date a.upload_date with h | h
    · exact Or.inl ((pyLe_iff _ _).mpr h)
    · exact Or.inr ((pyLe_iff _ _).mpr h)⟩

instance : IsTrans FDoc fdocLe :=
  ⟨fun _ _ _ h1 h2 => (pyLe_iff _ _).mpr
    (le_trans ((pyLe_iff _ _).mp h2) ((pyLe_iff _ _).mp h1))⟩

/-- The Mongo query built by the async list handler, evaluated on one
document with the documented operator semantics: `$gte`/`$lte` compare
strings bytewise, equality on `uploader`, and `$in` on the `tags` array
matches when some array element is among the given tokens.  `gte`/`lte`
are the already-parsed date bounds (absent when the corresponding filter
was not supplied). -/
def mongo_matches (gte lte : Option String) (q : ListQuery) (d : FDoc) : Bool :=
  (match gte with | some g => pyLe g d.upload_date | none => true) &&
  (match lte with | some l => pyLe d.upload_date l | none => true) &&
  (!truthy q.uploader || d.uploader == q.uploader.getD "") &&
  (!truthy q.tags ||
    (parse_tags (q.tags.getD "")).any (fun t => d.tags.contains t))

/-- The response row built from a stored document by the async list and
get endpoints (`server.py` lines 176-186 and 201-211). -/
def fdoc_response (d : FDoc) : FResponse :=
  ⟨d.id, d.filename, d.file_size, d.file_type, d.uploader, d.tags,
    d.description, d.upload_date, "/api/images/" ++ d.id ++ "/file"⟩

namespace Server

/-- `upload_image` of `server.py` (lines 69-130).  `fileUuid` and
`metaUuid` stand for the two independent `uuid.uuid4()` calls (storage name
and record id), `upload_date` for the generated UTC timestamp.  `saveOk`
injects failure of the local file write (its exception is caught and turned
into a 500); `insertOk` injects failure of `insert_one`, whose exception is
NOT caught in the handler and surfaces as the framework's generic 500,
leaving the already-saved file in place (no rollback). -/
def upload_image (saveOk insertOk : Bool) (fileUuid metaUuid upload_date : String)
    (st : FState) (file : FilePart) (uploader tags : String)
    (description : Option String) : FState × Resp FResponse :=
  match file.contentType with
  | none => (st, .err 400 "Only image files are allowed")
  | some ct =>
    if !pyStartsWith ct "image/" then (st, .err 400 "Only image files are allowed")
    else
      let unique_filename := fileUuid ++ path_suffix file.filename
      let file_path := "uploads/" ++ unique_filename
      if !saveOk then (st, .err 500 "Failed to save file")
      else
        let newFiles := (file_path, file.content) ::
          st.files.filter (fun p => p.1 != file_path)
        let st1 : FState := { st with files := newFiles }
        let file_size := file.content.length
        let tags_list := parse_tags tags
        let doc : FDoc :=
          ⟨metaUuid, file.filename, file_size, ct, uploader, tags_list,
            description, upload_date, file_path⟩
        if !insertOk then (st1, .err 500 "Internal Server Error")
        else
          ({ st1 with db := st1.db ++ [doc] }, .ok 200
            ⟨metaUuid, file.filename, file_size, ct, uploader, tags_list,
              description, upload_date, "/api/images/" ++ metaUuid ++ "/file"⟩)

/-- `list_images` of `server.py` (lines 133-188).  `parseIso` stands for
`lambda s: datetime.fromisoformat(s).isoformat()` of the standard library:
`none` models a `ValueError`, `some v` the normalized timestamp.  The Mongo
query the handler builds is evaluated with the documented operator
semantics: `$gte`/`$lte` compare strings bytewise, `$in` on an array field
matches when some array element is in the given list; `sort(-1)` then
`to_list(1000)` keep at most the first 1000 documents, newest first. -/
def list_images (parseIso : String → Option String) (st : FState)
    (q : ListQuery) : Resp (List FResponse) :=
  let pf : Except String (Option String) :=
    if truthy q.date_from then
      match parseIso (q.date_from.getD "") with
      | some v => .ok (some v)
      | none => .error "Invalid date_from format. Use ISO format."
    else .ok none
  match pf with
  | .error m => .err 400 m
  | .ok gte =>
    let pt : Except String (Option String) :=
      if truthy q.date_to then
        match parseIso (q.date_to.getD "") with
        | some v => .ok (some v)
        | none => .error "Invalid date_to format. Use ISO format."
      else .ok none
    match pt with
    | .error m => .err 400 m
    | .ok lte =>
      let docs := (List.insertionSort fdocLe
        (st.db.filter (mongo_matches gte lte q))).take 1000
      .ok 200 (docs.map fdoc_response)

/-- `get_image` of `server.py` (lines 191-211). -/
def get_image (st : FState) (image_id : String) : Resp FResponse :=
  match st.db.find? (fun d => d.id == image_id) with
  | none => .err 404 "Image not found"
  | some image => .ok 200 (fdoc_response image)

/-- The payload of the async variant's `FileResponse`: the served path and
bytes, the media type guessed from the path, and the suggested filename. -/
structure FFileResp where
  path : String
  data : Bytes
  media_type : String
  filename : String
deriving DecidableEq

/-- `download_image` of `server.py` (lines 214-236).  `guess` stands for
`mimetypes.guess_type` of the standard library.  A record whose file is
missing on disk yields a 404, not a 500. -/
def download_image (guess : String → Option String) (st : FState)
    (image_id : String) : Resp FFileResp :=
  match st.db.find? (fun d => d.id == image_id) with
  | none => .err 404 "Image not found"
  | some image =>
    match st.files.find? (fun p => p.1 == image.file_path) with
    | none => .err 404 "Image file not found on disk"
    | some entry =>
      let media_type := (guess image.file_path).getD "application/octet-stream"
      .ok 200 ⟨image.file_path, entry.2, media_type, image.filename⟩

/-- `delete_image` of `server.py` (lines 239-263): lookup (404 when
absent), then best-effort file removal — attempted only when the file
exists, and `unlinkOk` injects the `unlink` exception, which is logged
while processing continues — then `delete_one`.  `deleteOk` injects the
case in which `delete_one` matches no document (its `deleted_count` is
zero, e.g. after a concurrent removal), which the handler answers with the
500 database-delete error; otherwise the record is removed and the
confirmation message carrying the id is returned. -/
def delete_image (unlinkOk deleteOk : Bool) (st : FState)
    (image_id : String) : FState × Resp DeleteResp :=
  match st.db.find? (fun d => d.id == image_id) with
  | none => (st, .err 404 "Image not found")
  | some image =>
    let prunedFiles := st.files.filter (fun p => p.1 != image.file_path)
    let st1 : FState :=
      match st.files.find? (fun p => p.1 == image.file_path) with
      | none => st
      | some _ => if unlinkOk then { st with files := prunedFiles } else st
    if deleteOk then
      ({ st1 with db := st1.db.filter (fun d => d.id != image_id) },
        .ok 200 ⟨"Image deleted successfully", image_id⟩)
    else (st1, .err 500 "Failed to delete image from database")

end Server

/-! ## JSON wire format

A small JSON model used to state which keys each response body exposes. -/

/-- JSON values, sufficient for the response bodies of this service. -/
inductive Json where
  | null : Json
  | str : String → Json
  | num : Nat → Json
  | arr : List Json → Json
  | obj : List (String × Json) → Json

/-- An optional string field: `None` serializes to JSON `null`. -/
def optStrJson : Option String → Json
  | none => .null
  | some s => .str s

/-- The keys of a JSON object (empty for non-objects). -/
def Json.keys : Json → List String
  | .obj fields => fields.map Prod.fst
  | _ => []

/-- The serialized form of a stored item as produced by `jsonify` in the
blocking variant's `get_image` and `list_images`: every attribute of the
stored DynamoDB record — including `s3_key` — plus the added `url`. -/
def item_with_url_json (it : Item) (url : String) : Json :=
  .obj [("id", .str it.id), ("filename", .str it.filename),
    ("s3_key", .str it.s3_key), ("file_size", .num it.file_size),
    ("file_type", .str it.file_type), ("uploader", .str it.uploader),
    ("tags", .arr (it.tags.map Json.str)),
    ("description", optStrJson it.description),
    ("upload_date", .str it.upload_date), ("url", .str url)]

/-- The serialized form of the blocking variant's upload response
(`app.py` lines 120-130): enumerated fields, no `s3_key`. -/
def upload_response_json (r : UploadResponse) : Json :=
  .obj [("id", .str r.id), ("filename", .str r.filename),
    ("file_size", .num r.file_size), ("file_type", .str r.file_type),
    ("uploader", .str r.uploader), ("tags", .arr (r.tags.map Json.str)),
    ("description", optStrJson r.description),
    ("upload_date", .str r.upload_date), ("url", .str r.url)]

/-- The serialized form of the async variant's `ImageResponse` model:
exactly the declared model fields, no `file_path` and no `s3_key`. -/
def fresponse_json (r : FResponse) : Json :=
  .obj [("id", .str r.id), ("filename", .str r.filename),
    ("file_size", .num r.file_size), ("file_type", .str r.file_type),
    ("uploader", .str r.uploader), ("tags", .arr (r.tags.map Json.str)),
    ("description", optStrJson r.description),
    ("upload_date", .str r.upload_date), ("url", .str r.url)]

/-! ## Spec-side definitions

These follow the specification's words rather than the source, and are
compared with the source-derived definitions in the claim theorems. -/

/-- Spec wording of tag derivation: split the optional `tags` field on
commas, trim each token, drop the empty ones, keep the order; an absent
field yields the empty list. -/
def spec_tags (tags : Option String) : List String :=
  ((pySplit ',' (tags.getD "")).map pyStrip).filter (fun t => t != "")

/-- Spec wording of the list filters: a record matches when every supplied
filter accepts it — `date_from`/`date_to` are inclusive bounds on
`upload_date`, `uploader` is case-sensitive exact equality, and the tags
filter asks for at least one shared tag with the comma-split filter set. -/
def spec_matches (q : ListQuery) (it : Item) : Prop :=
  (truthy q.date_from = true → q.date_from.getD "" ≤ it.upload_date) ∧
  (truthy q.date_to = true → it.upload_date ≤ q.date_to.getD "") ∧
  (truthy q.uploader = true → it.uploader = q.uploader.getD "") ∧
  (truthy q.tags = true → ∃ t ∈ spec_tags q.tags, t ∈ it.tags)

instance (q : ListQuery) (it : Item) : Decidable (spec_matches q it) := by
  unfold spec_matches
  infer_instance

/-- An optional inclusive bound: the property holds of the bound when one
is present. -/
def opt_bound (o : Option String) (p : String → Prop) : Prop :=
  ∀ g, o = some g → p g

instance (o : Option String) (p : String → Prop) [DecidablePred p] :
    Decidable (opt_bound o p) :=
  match o with
  | none => isTrue (fun _ h => nomatch h)
  | some g =>
    if h : p g then isTrue (fun _ h' => (Option.some.inj h') ▸ h)
    else isFalse (fun hall => h (hall g rfl))

/-- Spec wording of the async variant's list filters, with the date
bounds already parsed: every supplied filter must accept the document —
inclusive date bounds on `upload_date`, case-sensitive uploader equality,
and at least one shared tag with the comma-split filter set. -/
def fserver_matches (gte lte : Option String) (q : ListQuery)
    (d : FDoc) : Prop :=
  opt_bound gte (fun g => g ≤ d.upload_date) ∧
  opt_bound lte (fun l => d.upload_date ≤ l) ∧
  (truthy q.uploader = true → d.uploader = q.uploader.getD "") ∧
  (truthy q.tags = true → ∃ t ∈ spec_tags q.tags, t ∈ d.tags)

instance (gte lte : Option String) (q : ListQuery) (d : FDoc) :
    Decidable (fserver_matches gte lte q d) := by
  unfold fserver_matches
  infer_instance

/-! ## Helper lemmas -/

/-- The source's tag parser agrees with the spec wording, including on the
absent (`none`) and empty-string cases that the source special-cases. -/
theorem parse_tags_eq_spec_tags (t : Option String) :
    parse_tags (t.getD "") = spec_tags t := by
  cases t with
  | none => decide
  | some s =>
    by_cases h : s = ""
    · subst h; decide
    · simp [parse_tags, spec_tags, h]

/-- `pyLt` read as a falsity: `pyLt a b = false` is `b ≤ a`. -/
theorem pyLt_false_iff (a b : String) : pyLt a b = false ↔ b ≤ a := by
  rw [← not_lt, ← pyLt_iff]
  cases pyLt a b <;> simp

/-- The keep condition of the blocking variant's filter loop decides the
spec-side match predicate. -/
theorem keep_item_iff (q : ListQuery) (it : Item) :
    App.keep_item q it = true ↔ spec_matches q it := by
  have hp : ∀ os : Option String, parse_tags (Option.getD os "") = spec_tags os :=
    parse_tags_eq_spec_tags
  cases hdf : truthy q.date_from <;> cases hdt : truthy q.date_to <;>
    cases hu : truthy q.uploader <;> cases htg : truthy q.tags <;>
      simp [App.keep_item, spec_matches, hdf, hdt, hu, htg, pyLt_false_iff, hp,
        List.any_eq_true, and_assoc]

/-- The Mongo query evaluation decides the async spec-side match
predicate. -/
theorem mongo_matches_iff (gte lte : Option String) (q : ListQuery)
    (d : FDoc) :
    mongo_matches gte lte q d = true ↔ fserver_matches gte lte q d := by
  have hp : ∀ os : Option String, parse_tags (Option.getD os "") = spec_tags os :=
    parse_tags_eq_spec_tags
  have hgte : (match gte with
      | some g => pyLe g d.upload_date | none => true) = true ↔
      opt_bound gte (fun g => g ≤ d.upload_date) := by
    cases gte with
    | none => simp [opt_bound]
    | some g =>
      simp only [pyLe_iff, opt_bound]
      constructor
      · intro h g' h'
        cases h'
        exact h
      · intro h
        exact h g rfl
  have hlte : (match lte with
      | some l => pyLe d.upload_date l | none => true) = true ↔
      opt_bound lte (fun l => d.upload_date ≤ l) := by
    cases lte with
    | none => simp [opt_bound]
    | some l =>
      simp only [pyLe_iff, opt_bound]
      constructor
      · intro h l' h'
        cases h'
        exact h
      · intro h
        exact h l rfl
  cases hu : truthy q.uploader <;> cases htg : truthy q.tags <;>
    simp [mongo_matches, fserver_matches, hu, htg, hgte, hlte, hp,
      List.any_eq_true, and_assoc]

/-- The Mongo query evaluation written as a decision of the async
spec-side match predicate. -/
theorem mongo_matches_eq_decide (gte lte : Option String) (q : ListQuery)
    (d : FDoc) :
    mongo_matches gte lte q d = decide (fserver_matches gte lte q d) := by
  by_cases h : fserver_matches gte lte q d
  · rw [(mongo_matches_iff gte lte q d).mpr h, decide_eq_true h]
  · cases hk : mongo_matches gte lte q d with
    | false => rw [decide_eq_false h]
    | true => exact absurd ((mongo_matches_iff gte lte q d).mp hk) h

/-! ## Concrete fixtures used by the witness theorems -/

/-- Environment in which every store call succeeds. -/
def envAllOk : AwsEnv := ⟨true, true, true, true, true, true, true⟩

/-- Environment in which only the DynamoDB insert fails. -/
def envNoDdbPut : AwsEnv := ⟨true, true, true, false, true, true, true⟩

/-- Environment in which the DynamoDB insert and the S3 delete fail. -/
def envNoDdbPutNoS3Del : AwsEnv := ⟨true, true, false, false, true, true, true⟩

/-- Environment in which only the DynamoDB point read fails. -/
def envNoDdbGet : AwsEnv := ⟨true, true, true, true, false, true, true⟩

/-- Environment in which only the DynamoDB delete fails. -/
def envNoDdbDel : AwsEnv := ⟨true, true, true, true, true, true, false⟩

/-- Environment in which only the S3 delete fails. -/
def envNoS3Del : AwsEnv := ⟨true, true, false, true, true, true, true⟩

/-- Environment in which only the S3 read fails. -/
def envNoS3Get : AwsEnv := ⟨true, false, true, true, true, true, true⟩

/-- A stored document of the async variant whose file is referenced at
`uploads/f0.png`. -/
def demoFDoc : FDoc :=
  ⟨"m0", "a.png", 1, "image/png", "U", [], none, "T1", "uploads/f0.png"⟩

/-- Both stores empty. -/
def emptyAws : AwsState := ⟨[], []⟩

/-- A well-formed file part. -/
def demoFile : FilePart := ⟨"a.png", some "image/png", [1, 2]⟩

/-- A fully valid upload form carrying the spec's example metadata. -/
def demoForm : UploadForm := ⟨some demoFile, some "U", some "a, b , ,c", some "d"⟩

/-- The record that uploading `demoForm` as `id0` at time `T1` persists. -/
def demoItem : Item :=
  ⟨"id0", "a.png", "id0.png", 2, "image/png", "U", ["a", "b", "c"], some "d", "T1"⟩

/-! ## Claim theorems -/

/-- C1: when the blob write succeeds but the metadata insert fails, the
blocking variant's upload answers the 500 `MetadataWriteFailed` error,
leaves the metadata store untouched, and performs a best-effort delete of
the just-written blob (the blob is gone when the delete succeeds, and is
the freshly written object when the delete itself fails); conversely a
created (201) response implies that the record is in the metadata store
and its blob is in the blob store. -/
theorem upload_rollback_on_metadata_failure :
    (∀ (env : AwsEnv) (image_id upload_date : String) (st : AwsState)
      (file : FilePart) (ct uploader : String) (tagsF descF : Option String),
      file.contentType = some ct → pyStartsWith ct "image/" = true →
      file.filename ≠ "" → uploader ≠ "" →
      env.s3PutOk = true → env.ddbPutOk = false →
      ∃ st', App.upload_image env image_id upload_date st
          ⟨some file, some uploader, tagsF, descF⟩ =
          (st', .err 500 "Failed to save metadata to DynamoDB") ∧
        st'.ddb = st.ddb ∧
        (env.s3DeleteOk = true →
          ∀ o ∈ st'.s3, o.key ≠ image_id ++ "." ++ file_extension file.filename) ∧
        (env.s3DeleteOk = false →
          S3Obj.mk (image_id ++ "." ++ file_extension file.filename)
            file.content ct ∈ st'.s3)) ∧
    (∀ (env : AwsEnv) (image_id upload_date : String) (st : AwsState)
      (form : UploadForm) (st' : AwsState) (resp : UploadResponse),
      App.upload_image env image_id upload_date st form = (st', .ok 201 resp) →
      ∃ it ∈ st'.ddb, it.id = image_id ∧
        ∃ fp, form.file = some fp ∧
          ∃ o ∈ st'.s3, o.key = it.s3_key ∧ o.data = fp.content) := by
  constructor
  · intro env image_id upload_date st file ct uploader tagsF descF
      hct hcti hfn hup hs3 hddb
    refine ⟨(Aws.delete_from_s3 env
      { st with s3 := ⟨image_id ++ "." ++ file_extension file.filename,
          file.content, ct⟩ ::
        st.s3.filter (fun o => o.key != image_id ++ "." ++
          file_extension file.filename) }
      (image_id ++ "." ++ file_extension file.filename)).1, ?_, ?_, ?_, ?_⟩
    · simp [App.upload_image, hct, hcti, hfn, hup, hs3, hddb,
        Aws.upload_to_s3, Aws.put_item]
    · cases hdel : env.s3DeleteOk <;>
        simp [Aws.delete_from_s3, hdel]
    · intro hdel
      simp only [Aws.delete_from_s3, hdel, if_true]
      intro o ho
      simp only [List.mem_filter] at ho
      simpa using ho.2
    · intro hdel
      simp [Aws.delete_from_s3, hdel]
  · intro env image_id upload_date st form st' resp heq
    unfold App.upload_image at heq
    cases hfile : form.file with
    | none => rw [hfile] at heq; simp at heq
    | some file =>
      rw [hfile] at heq
      simp only at heq
      by_cases hfn : file.filename = ""
      · simp [hfn] at heq
      · simp only [if_neg hfn] at heq
        cases hct : file.contentType with
        | none => rw [hct] at heq; simp at heq
        | some ct =>
          rw [hct] at heq
          simp only at heq
          cases hsw : pyStartsWith ct "image/" with
          | false => simp [hsw] at heq
          | true =>
            simp only [hsw, Bool.not_true, Bool.false_eq_true, if_false] at heq
            cases hupl : form.uploader with
            | none => rw [hupl] at heq; simp at heq
            | some up =>
              rw [hupl] at heq
              simp only at heq
              by_cases hupe : up = ""
              · simp [hupe] at heq
              · simp only [if_neg hupe] at heq
                cases hs3 : env.s3PutOk with
                | false => simp [Aws.upload_to_s3, hs3] at heq
                | true =>
                  simp only [Aws.upload_to_s3, hs3, if_true] at heq
                  cases hput : env.ddbPutOk with
                  | false => simp [Aws.put_item, hput] at heq
                  | true =>
                    simp only [Aws.put_item, hput, if_true, Bool.not_true,
                      Bool.false_eq_true, if_false, Prod.mk.injEq] at heq
                    obtain ⟨hst, hresp⟩ := heq
                    subst hst
                    refine ⟨⟨image_id, file.filename,
                      image_id ++ "." ++ file_extension file.filename,
                      file.content.length, ct, up,
                      parse_tags (form.tags.getD ""), form.description,
                      upload_date⟩, ?_, rfl, file, rfl,
                      ⟨image_id ++ "." ++ file_extension file.filename,
                        file.content, ct⟩, ?_, rfl, rfl⟩
                    · exact List.mem_cons_self _ _
                    · exact List.mem_cons_self _ _

/-- Witness for C1 at a concrete failing-insert run and a concrete
successful run. -/
theorem upload_rollback_on_metadata_failure_witness :
    (∃ st', App.upload_image envNoDdbPut "id0" "T1" emptyAws
        ⟨some demoFile, some "U", some "a, b , ,c", some "d"⟩ =
        (st', .err 500 "Failed to save metadata to DynamoDB") ∧
      st'.ddb = emptyAws.ddb ∧
      (envNoDdbPut.s3DeleteOk = true →
        ∀ o ∈ st'.s3, o.key ≠ "id0" ++ "." ++ file_extension demoFile.filename) ∧
      (envNoDdbPut.s3DeleteOk = false →
        S3Obj.mk ("id0" ++ "." ++ file_extension demoFile.filename)
          demoFile.content "image/png" ∈ st'.s3)) ∧
    (∃ it ∈ (AwsState.mk [⟨"id0.png", [1, 2], "image/png"⟩] [demoItem]).ddb,
      it.id = "id0" ∧
      ∃ fp, demoForm.file = some fp ∧
        ∃ o ∈ (AwsState.mk [⟨"id0.png", [1, 2], "image/png"⟩] [demoItem]).s3,
          o.key = it.s3_key ∧ o.data = fp.content) :=
  ⟨upload_rollback_on_metadata_failure.1 envNoDdbPut "id0" "T1" emptyAws demoFile
      "image/png" "U" (some "a, b , ,c") (some "d") rfl (by decide) (by decide)
      (by decide) rfl rfl,
   upload_rollback_on_metadata_failure.2 envAllOk "id0" "T1" emptyAws demoForm
      ⟨[⟨"id0.png", [1, 2], "image/png"⟩], [demoItem]⟩
      ⟨"id0", "a.png", 2, "image/png", "U", ["a", "b", "c"], some "d", "T1",
        "/api/images/id0/file"⟩
      (by decide)⟩

/-- C2 (amended): in the blocking variant the three upload checks run in
the stated order — missing file part, empty filename, bad or missing
declared content type, then missing or empty uploader — the first failing
check fixes the 400 message and the state is returned unchanged (no store
write).  In the async variant the handler checks only the content type:
an upload whose uploader is the empty string succeeds and writes a
metadata record whose uploader is empty. -/
theorem upload_validation_order_amended :
    (∀ (env : AwsEnv) (image_id upload_date : String) (st : AwsState)
      (form : UploadForm), form.file = none →
      App.upload_image env image_id upload_date st form =
        (st, .err 400 "No file provided")) ∧
    (∀ (env : AwsEnv) (image_id upload_date : String) (st : AwsState)
      (form : UploadForm) (fp : FilePart), form.file = some fp →
      fp.filename = "" →
      App.upload_image env image_id upload_date st form =
        (st, .err 400 "No file selected")) ∧
    (∀ (env : AwsEnv) (image_id upload_date : String) (st : AwsState)
      (form : UploadForm) (fp : FilePart), form.file = some fp →
      fp.filename ≠ "" →
      (∀ ct, fp.contentType = some ct → pyStartsWith ct "image/" = false) →
      App.upload_image env image_id upload_date st form =
        (st, .err 400 "Only image files are allowed")) ∧
    (∀ (env : AwsEnv) (image_id upload_date : String) (st : AwsState)
      (form : UploadForm) (fp : FilePart) (ct : String), form.file = some fp →
      fp.filename ≠ "" → fp.contentType = some ct →
      pyStartsWith ct "image/" = true → truthy form.uploader = false →
      App.upload_image env image_id upload_date st form =
        (st, .err 400 "Uploader name is required")) ∧
    (∀ (st : FState) (file : FilePart) (ct tags : String)
      (descF : Option String) (fileUuid metaUuid upload_date : String),
      file.contentType = some ct → pyStartsWith ct "image/" = true →
      ∃ st' resp, Server.upload_image true true fileUuid metaUuid upload_date
          st file "" tags descF = (st', .ok 200 resp) ∧
        resp.uploader = "" ∧ st'.db.length = st.db.length + 1 ∧
        ∃ d ∈ st'.db, d.uploader = "") := by
  refine ⟨?_, ?_, ?_, ?_, ?_⟩
  · intro env image_id upload_date st form hfile
    simp [App.upload_image, hfile]
  · intro env image_id upload_date st form fp hfile hfn
    simp [App.upload_image, hfile, hfn]
  · intro env image_id upload_date st form fp hfile hfn hct
    cases hc : fp.contentType with
    | none => simp [App.upload_image, hfile, hfn, hc]
    | some ct => simp [App.upload_image, hfile, hfn, hc, hct ct hc]
  · intro env image_id upload_date st form fp ct hfile hfn hct hsw hup
    cases hu : form.uploader with
    | none => simp [App.upload_image, hfile, hfn, hct, hsw, hu]
    | some u =>
      have hue : u = "" := by simpa [truthy, hu] using hup
      simp [App.upload_image, hfile, hfn, hct, hsw, hu, hue]
  · intro st file ct tags descF fileUuid metaUuid upload_date hct hsw
    refine ⟨⟨("uploads/" ++ (fileUuid ++ path_suffix file.filename),
        file.content) :: st.files.filter
          (fun p => p.1 != "uploads/" ++ (fileUuid ++ path_suffix file.filename)),
      st.db ++ [⟨metaUuid, file.filename, file.content.length, ct, "",
        parse_tags tags, descF, upload_date,
        "uploads/" ++ (fileUuid ++ path_suffix file.filename)⟩]⟩,
      ⟨metaUuid, file.filename, file.content.length, ct, "", parse_tags tags,
        descF, upload_date, "/api/images/" ++ metaUuid ++ "/file"⟩,
      ?_, rfl, ?_, ?_⟩
    · simp [Server.upload_image, hct, hsw]
    · simp
    · exact ⟨_, List.mem_append_right _ (List.mem_singleton_self _), rfl⟩

/-- Counterexample to C2 as stated: the async variant accepts an upload
whose `uploader` form field is the empty string — validation check (3)
fails, yet the response is a success and a metadata record (with empty
uploader) is persisted. -/
theorem server_upload_accepts_empty_uploader :
    Server.upload_image true true "f0" "m0" "T1" ⟨[], []⟩
      ⟨"a.png", some "image/png", [7]⟩ "" "" none =
      (⟨[("uploads/f0.png", [7])],
        [⟨"m0", "a.png", 1, "image/png", "", [], none, "T1", "uploads/f0.png"⟩]⟩,
       .ok 200 ⟨"m0", "a.png", 1, "image/png", "", [], none, "T1",
         "/api/images/m0/file"⟩) := by decide

/-- Witness for C2 (amended) at concrete inputs exercising all five
conjuncts. -/
theorem upload_validation_order_amended_witness :
    (App.upload_image envAllOk "id0" "T1" emptyAws ⟨none, some "U", none, none⟩ =
      (emptyAws, .err 400 "No file provided")) ∧
    (App.upload_image envAllOk "id0" "T1" emptyAws
        ⟨some ⟨"", some "image/png", [1]⟩, some "U", none, none⟩ =
      (emptyAws, .err 400 "No file selected")) ∧
    (App.upload_image envAllOk "id0" "T1" emptyAws
        ⟨some ⟨"a.txt", some "text/plain", [1]⟩, some "U", none, none⟩ =
      (emptyAws, .err 400 "Only image files are allowed")) ∧
    (App.upload_image envAllOk "id0" "T1" emptyAws
        ⟨some demoFile, none, none, none⟩ =
      (emptyAws, .err 400 "Uploader name is required")) ∧
    (∃ st' resp, Server.upload_image true true "f0" "m0" "T1"
        (FState.mk [] []) demoFile "" "" none = (st', .ok 200 resp) ∧
      resp.uploader = "" ∧ st'.db.length = (FState.mk [] []).db.length + 1 ∧
      ∃ d ∈ st'.db, d.uploader = "") :=
  ⟨upload_validation_order_amended.1 envAllOk "id0" "T1" emptyAws
      ⟨none, some "U", none, none⟩ rfl,
   upload_validation_order_amended.2.1 envAllOk "id0" "T1" emptyAws
      ⟨some ⟨"", some "image/png", [1]⟩, some "U", none, none⟩
      ⟨"", some "image/png", [1]⟩ rfl rfl,
   upload_validation_order_amended.2.2.1 envAllOk "id0" "T1" emptyAws
      ⟨some ⟨"a.txt", some "text/plain", [1]⟩, some "U", none, none⟩
      ⟨"a.txt", some "text/plain", [1]⟩ rfl (by decide)
      (by intro ct h; cases h; decide),
   upload_validation_order_amended.2.2.2.1 envAllOk "id0" "T1" emptyAws
      ⟨some demoFile, none, none, none⟩ demoFile "image/png" rfl (by decide)
      rfl (by decide) rfl,
   upload_validation_order_amended.2.2.2.2 (FState.mk [] []) demoFile
      "image/png" "" none "f0" "m0" "T1" rfl (by decide)⟩

/-- C3: every valid upload (in either variant) is answered with a created
success whose tags are the comma-split, trimmed, non-empty tokens of the
tags field in order, whose description is the supplied value (absent when
not supplied), and whose file size is the exact byte length of the
content; the persisted record carries the same fields.  The spec's example
split is included: `"a, b , ,c"` yields `["a", "b", "c"]` and an absent
field yields `[]`. -/
theorem upload_metadata_fields_correct :
    (∀ (env : AwsEnv) (image_id upload_date : String) (st : AwsState)
      (file : FilePart) (ct uploader : String) (tagsF descF : Option String),
      file.contentType = some ct → pyStartsWith ct "image/" = true →
      file.filename ≠ "" → uploader ≠ "" →
      env.s3PutOk = true → env.ddbPutOk = true →
      ∃ st' resp, App.upload_image env image_id upload_date st
          ⟨some file, some uploader, tagsF, descF⟩ = (st', .ok 201 resp) ∧
        resp.tags = spec_tags tagsF ∧ resp.description = descF ∧
        resp.file_size = file.content.length ∧
        ∃ it ∈ st'.ddb, it.id = image_id ∧ it.tags = spec_tags tagsF ∧
          it.description = descF ∧ it.file_size = file.content.length) ∧
    (∀ (st : FState) (file : FilePart) (ct uploader tags : String)
      (descF : Option String) (fileUuid metaUuid upload_date : String),
      file.contentType = some ct → pyStartsWith ct "image/" = true →
      ∃ st' resp, Server.upload_image true true fileUuid metaUuid upload_date
          st file uploader tags descF = (st', .ok 200 resp) ∧
        resp.tags = spec_tags (some tags) ∧ resp.description = descF ∧
        resp.file_size = file.content.length ∧
        ∃ d ∈ st'.db, d.id = metaUuid ∧ d.tags = spec_tags (some tags) ∧
          d.description = descF ∧ d.file_size = file.content.length) ∧
    (spec_tags (some "a, b , ,c") = ["a", "b", "c"] ∧ spec_tags none = []) := by
  refine ⟨?_, ?_, by decide⟩
  · intro env image_id upload_date st file ct uploader tagsF descF
      hct hsw hfn hup hs3 hddb
    refine ⟨⟨⟨image_id ++ "." ++ file_extension file.filename, file.content, ct⟩ ::
        st.s3.filter (fun o => o.key != image_id ++ "." ++
          file_extension file.filename),
      ⟨image_id, file.filename, image_id ++ "." ++ file_extension file.filename,
        file.content.length, ct, uploader, parse_tags (tagsF.getD ""), descF,
        upload_date⟩ :: st.ddb.filter (fun i => i.id != image_id)⟩,
      ⟨image_id, file.filename, file.content.length, ct, uploader,
        parse_tags (tagsF.getD ""), descF, upload_date,
        "/api/images/" ++ image_id ++ "/file"⟩,
      ?_, parse_tags_eq_spec_tags tagsF, rfl, rfl,
      ⟨image_id, file.filename, image_id ++ "." ++ file_extension file.filename,
        file.content.length, ct, uploader, parse_tags (tagsF.getD ""), descF,
        upload_date⟩, List.mem_cons_self _ _, rfl,
      parse_tags_eq_spec_tags tagsF, rfl, rfl⟩
    simp [App.upload_image, hct, hsw, hfn, hup, hs3, hddb,
      Aws.upload_to_s3, Aws.put_item]
  · intro st file ct uploader tags descF fileUuid metaUuid upload_date hct hsw
    refine ⟨⟨("uploads/" ++ (fileUuid ++ path_suffix file.filename),
        file.content) :: st.files.filter
          (fun p => p.1 != "uploads/" ++ (fileUuid ++ path_suffix file.filename)),
      st.db ++ [⟨metaUuid, file.filename, file.content.length, ct, uploader,
        parse_tags tags, descF, upload_date,
        "uploads/" ++ (fileUuid ++ path_suffix file.filename)⟩]⟩,
      ⟨metaUuid, file.filename, file.content.length, ct, uploader,
        parse_tags tags, descF, upload_date,
        "/api/images/" ++ metaUuid ++ "/file"⟩,
      ?_, parse_tags_eq_spec_tags (some tags), rfl, rfl,
      ⟨metaUuid, file.filename, file.content.length, ct, uploader,
        parse_tags tags, descF, upload_date,
        "uploads/" ++ (fileUuid ++ path_suffix file.filename)⟩,
      List.mem_append_right _ (List.mem_singleton_self _), rfl,
      parse_tags_eq_spec_tags (some tags), rfl, rfl⟩
    simp [Server.upload_image, hct, hsw]

/-- Witness for C3: the spec's example upload (uploader `"U"`, tags
`"a, b , ,c"`, description `"d"`, two content bytes) in both variants. -/
theorem upload_metadata_fields_correct_witness :
    (∃ st' resp, App.upload_image envAllOk "id0" "T1" emptyAws
        ⟨some demoFile, some "U", some "a, b , ,c", some "d"⟩ =
        (st', .ok 201 resp) ∧
      resp.tags = spec_tags (some "a, b , ,c") ∧ resp.description = some "d" ∧
      resp.file_size = demoFile.content.length ∧
      ∃ it ∈ st'.ddb, it.id = "id0" ∧ it.tags = spec_tags (some "a, b , ,c") ∧
        it.description = some "d" ∧ it.file_size = demoFile.content.length) ∧
    (∃ st' resp, Server.upload_image true true "f0" "m0" "T1"
        (FState.mk [] []) demoFile "U" "a, b , ,c" (some "d") =
        (st', .ok 200 resp) ∧
      resp.tags = spec_tags (some "a, b , ,c") ∧ resp.description = some "d" ∧
      resp.file_size = demoFile.content.length ∧
      ∃ d ∈ st'.db, d.id = "m0" ∧ d.tags = spec_tags (some "a, b , ,c") ∧
        d.description = some "d" ∧ d.file_size = demoFile.content.length) :=
  ⟨upload_metadata_fields_correct.1 envAllOk "id0" "T1" emptyAws demoFile
      "image/png" "U" (some "a, b , ,c") (some "d") rfl (by decide) (by decide)
      (by decide) rfl rfl,
   upload_metadata_fields_correct.2.1 (FState.mk [] []) demoFile "image/png"
      "U" "a, b , ,c" (some "d") "f0" "m0" "T1" rfl (by decide)⟩

/-- The filter loop's keep condition written as a decision of the spec
predicate. -/
theorem keep_item_eq_decide (q : ListQuery) (it : Item) :
    App.keep_item q it = decide (spec_matches q it) := by
  by_cases h : spec_matches q it
  · rw [(keep_item_iff q it).mpr h, decide_eq_true h]
  · cases hk : App.keep_item q it with
    | false => rw [decide_eq_false h]
    | true => exact absurd ((keep_item_iff q it).mp hk) h

/-- Decorating items with their URL and projecting back is the identity. -/
theorem map_fst_decorate (l : List Item) :
    (l.map (fun it => (it, item_url it))).map Prod.fst = l := by
  induction l with
  | nil => rfl
  | cons a l ih => simp [ih]

/-- C4 (amended): in the blocking variant, listing with scan available
returns, with status 200, exactly the stored records satisfying the
conjunction of the supplied filters (inclusive date bounds, case-sensitive
uploader equality, at-least-one-shared-tag), sorted by `upload_date`
descending and each decorated with its download URL; an empty store yields
`[]`.  In the async variant every successful list response is the
take-1000 prefix of a newest-first sorted enumeration of exactly the
documents matching the conjunction of the supplied filters (with the date
bounds equal to the parsed values when the date filters are supplied), so
it returns at most the first 1000 matching records, newest first, because
of its `to_list(1000)` cap. -/
theorem list_filter_semantics_amended :
    (∀ (env : AwsEnv) (st : AwsState) (q : ListQuery), env.ddbScanOk = true →
      ∃ res, App.list_images env st q = .ok 200 res ∧
        (res.map Prod.fst).Perm
          (st.ddb.filter (fun it => decide (spec_matches q it))) ∧
        List.Sorted (fun a b : Item => b.upload_date ≤ a.upload_date)
          (res.map Prod.fst) ∧
        (∀ p ∈ res, p.2 = item_url p.1) ∧
        (st.ddb = [] → res = [])) ∧
    (∀ (parseIso : String → Option String) (st : FState) (q : ListQuery)
      (res : List FResponse), Server.list_images parseIso st q = .ok 200 res →
      ∃ gte lte sorted,
        (truthy q.date_from = true →
          parseIso (q.date_from.getD "") = gte ∧ gte ≠ none) ∧
        (truthy q.date_from = false → gte = none) ∧
        (truthy q.date_to = true →
          parseIso (q.date_to.getD "") = lte ∧ lte ≠ none) ∧
        (truthy q.date_to = false → lte = none) ∧
        sorted.Perm (st.db.filter
          (fun d => decide (fserver_matches gte lte q d))) ∧
        List.Sorted (fun a b : FDoc => b.upload_date ≤ a.upload_date)
          sorted ∧
        res = (sorted.take 1000).map fdoc_response ∧
        res.length ≤ 1000) := by
  constructor
  · intro env st q hscan
    refine ⟨(List.insertionSort itemLe
        (st.ddb.filter (App.keep_item q))).map (fun it => (it, item_url it)),
      ?_, ?_, ?_, ?_, ?_⟩
    · simp [App.list_images, Aws.scan_items, hscan]
    · rw [map_fst_decorate]
      have hfe : st.ddb.filter (App.keep_item q) =
          st.ddb.filter (fun it => decide (spec_matches q it)) :=
        List.filter_congr (fun x _ => keep_item_eq_decide q x)
      rw [← hfe]
      exact List.perm_insertionSort itemLe _
    · rw [map_fst_decorate]
      have hs := List.sorted_insertionSort itemLe
        (st.ddb.filter (App.keep_item q))
      exact hs.imp (fun h => (pyLe_iff _ _).mp h)
    · intro p hp
      rcases List.mem_map.mp hp with ⟨it, -, rfl⟩
      rfl
    · intro h
      rw [h]
      rfl
  · intro parseIso st q res heq
    have core : ∀ (gte lte : Option String),
        (List.insertionSort fdocLe
          (st.db.filter (mongo_matches gte lte q))).Perm
          (st.db.filter (fun d => decide (fserver_matches gte lte q d))) ∧
        List.Sorted (fun a b : FDoc => b.upload_date ≤ a.upload_date)
          (List.insertionSort fdocLe (st.db.filter (mongo_matches gte lte q))) := by
      intro gte lte
      constructor
      · have hfe : st.db.filter (mongo_matches gte lte q) =
            st.db.filter (fun d => decide (fserver_matches gte lte q d)) :=
          List.filter_congr (fun x _ => mongo_matches_eq_decide gte lte q x)
        rw [← hfe]
        exact List.perm_insertionSort fdocLe _
      · exact (List.sorted_insertionSort fdocLe _).imp
          (fun h => (pyLe_iff _ _).mp h)
    unfold Server.list_images at heq
    by_cases hdf : truthy q.date_from = true
    · rw [if_pos hdf] at heq
      cases hpf : parseIso (q.date_from.getD "") with
      | none => rw [hpf] at heq; simp at heq
      | some g =>
        rw [hpf] at heq
        simp only at heq
        by_cases hdt : truthy q.date_to = true
        · rw [if_pos hdt] at heq
          cases hpt : parseIso (q.date_to.getD "") with
          | none => rw [hpt] at heq; simp at heq
          | some l =>
            rw [hpt] at heq
            simp only [Resp.ok.injEq, true_and] at heq
            subst heq
            refine ⟨some g, some l, _,
              (fun _ => ⟨rfl, Option.some_ne_none _⟩),
              (fun h => Bool.noConfusion (hdf.symm.trans h)),
              (fun _ => ⟨rfl, Option.some_ne_none _⟩),
              (fun h => Bool.noConfusion (hdt.symm.trans h)),
              (core (some g) (some l)).1, (core (some g) (some l)).2,
              ?_, ?_⟩
            · simp [List.map_take]
            · simp only [List.length_map, List.length_take]
              omega
        · rw [if_neg hdt] at heq
          simp only [Resp.ok.injEq, true_and] at heq
          subst heq
          refine ⟨some g, none, _,
            (fun _ => ⟨rfl, Option.some_ne_none _⟩),
            (fun h => Bool.noConfusion (hdf.symm.trans h)),
            (fun h => absurd h hdt), (fun _ => rfl),
            (core (some g) none).1, (core (some g) none).2, ?_, ?_⟩
          · simp [List.map_take]
          · simp only [List.length_map, List.length_take]
            omega
    · rw [if_neg hdf] at heq
      simp only at heq
      by_cases hdt : truthy q.date_to = true
      · rw [if_pos hdt] at heq
        cases hpt : parseIso (q.date_to.getD "") with
        | none => rw [hpt] at heq; simp at heq
        | some l =>
          rw [hpt] at heq
          simp only [Resp.ok.injEq, true_and] at heq
          subst heq
          refine ⟨none, some l, _,
            (fun h => absurd h hdf), (fun _ => rfl),
            (fun _ => ⟨rfl, Option.some_ne_none _⟩),
            (fun h => Bool.noConfusion (hdt.symm.trans h)),
            (core none (some l)).1, (core none (some l)).2, ?_, ?_⟩
          · simp [List.map_take]
          · simp only [List.length_map, List.length_take]
            omega
      · rw [if_neg hdt] at heq
        simp only [Resp.ok.injEq, true_and] at heq
        subst heq
        refine ⟨none, none, _,
          (fun h => absurd h hdf), (fun _ => rfl),
          (fun h => absurd h hdt), (fun _ => rfl),
          (core none none).1, (core none none).2, ?_, ?_⟩
        · simp [List.map_take]
        · simp only [List.length_map, List.length_take]
          omega

/-- One of 1001 identical-date documents used to exhibit the async list
cap. -/
def capDoc (i : Nat) : FDoc :=
  ⟨toString i, "f.png", 0, "image/png", "U", [], none, "T0", "uploads/x.png"⟩

/-- A store holding 1001 documents, all matching the empty filter set. -/
def capState : FState := ⟨[], (List.range 1001).map capDoc⟩

/-- The number of records in a successful list response. -/
def respListLen : Resp (List FResponse) → Nat
  | .ok _ xs => xs.length
  | .err _ _ => 0

/-- With no filters supplied, the async list returns the first 1000 of
the sorted documents. -/
theorem server_list_empty_query (parseIso : String → Option String)
    (st : FState) :
    Server.list_images parseIso st ⟨none, none, none, none⟩ =
      .ok 200 (((List.insertionSort fdocLe st.db).take 1000).map
        fdoc_response) := by
  unfold Server.list_images
  have hm : mongo_matches none none (ListQuery.mk none none none none) =
      fun _ => true := by
    funext d
    simp [mongo_matches, truthy]
  simp [truthy, hm]

/-- Counterexample to C4 as stated: with 1001 stored records all matching
the (empty) filter conjunction, the async variant's list returns only
1000 records, not all matching ones. -/
theorem server_list_caps_at_1000 :
    respListLen (Server.list_images (fun s => some s) capState
      ⟨none, none, none, none⟩) = 1000 ∧ capState.db.length = 1001 := by
  have h1 : capState.db.length = 1001 := by
    simp [capState]
  refine ⟨?_, h1⟩
  rw [server_list_empty_query]
  simp only [respListLen]
  rw [List.length_map, List.length_take,
    (List.perm_insertionSort fdocLe _).length_eq, h1]
  omega

/-- Witness for C4 at a one-record store with no filters, and the async
cap bound at an empty store. -/
theorem list_filter_semantics_amended_witness :
    (∃ res, App.list_images envAllOk (AwsState.mk [] [demoItem])
        ⟨none, none, none, none⟩ = .ok 200 res ∧
      (res.map Prod.fst).Perm ((AwsState.mk [] [demoItem]).ddb.filter
        (fun it => decide (spec_matches ⟨none, none, none, none⟩ it))) ∧
      List.Sorted (fun a b : Item => b.upload_date ≤ a.upload_date)
        (res.map Prod.fst) ∧
      (∀ p ∈ res, p.2 = item_url p.1) ∧
      ((AwsState.mk [] [demoItem]).ddb = [] → res = [])) ∧
    (∃ gte lte sorted,
      (truthy (none : Option String) = true →
        some ((none : Option String).getD "") = gte ∧ gte ≠ none) ∧
      (truthy (none : Option String) = false → gte = none) ∧
      (truthy (none : Option String) = true →
        some ((none : Option String).getD "") = lte ∧ lte ≠ none) ∧
      (truthy (none : Option String) = false → lte = none) ∧
      sorted.Perm ((FState.mk [] []).db.filter
        (fun d => decide (fserver_matches gte lte
          (ListQuery.mk none none none none) d))) ∧
      List.Sorted (fun a b : FDoc => b.upload_date ≤ a.upload_date) sorted ∧
      ([] : List FResponse) = (sorted.take 1000).map fdoc_response ∧
      ([] : List FResponse).length ≤ 1000) :=
  ⟨list_filter_semantics_amended.1 envAllOk ⟨[], [demoItem]⟩
      ⟨none, none, none, none⟩ rfl,
   list_filter_semantics_amended.2 (fun s => some s) ⟨[], []⟩
      ⟨none, none, none, none⟩ [] rfl⟩

/-- C5 (amended): the async variant rejects a malformed date filter with
an `InvalidRequest` (400) naming the offending parameter — so no records
are returned — while the blocking variant performs no date validation at
all: every list request, malformed dates included, is answered with a 200
success. -/
theorem list_date_validation_amended :
    (∀ (parseIso : String → Option String) (st : FState) (q : ListQuery)
      (df : String), q.date_from = some df → df ≠ "" → parseIso df = none →
      Server.list_images parseIso st q =
        .err 400 "Invalid date_from format. Use ISO format.") ∧
    (∀ (parseIso : String → Option String) (st : FState) (q : ListQuery)
      (dt : String), q.date_to = some dt → dt ≠ "" → parseIso dt = none →
      (truthy q.date_from = true →
        ∃ v, parseIso (q.date_from.getD "") = some v) →
      Server.list_images parseIso st q =
        .err 400 "Invalid date_to format. Use ISO format.") ∧
    (∀ (env : AwsEnv) (st : AwsState) (q : ListQuery),
      ∃ res, App.list_images env st q = .ok 200 res) := by
  refine ⟨?_, ?_, ?_⟩
  · intro parseIso st q df hdf hne hparse
    simp [Server.list_images, truthy, hdf, hne, hparse]
  · intro parseIso st q dt hdt hne hparse hdf
    by_cases hdft : truthy q.date_from = true
    · obtain ⟨v, hv⟩ := hdf hdft
      unfold Server.list_images
      rw [if_pos hdft, hv]
      simp [truthy, hdt, hne, hparse]
    · unfold Server.list_images
      rw [if_neg hdft]
      simp [truthy, hdt, hne, hparse]
  · intro env st q
    exact ⟨_, rfl⟩

/-- Counterexample to C5 as stated: the blocking variant answers a list
request whose `date_from` is not ISO-8601 with a 200 success, not a 400. -/
theorem flask_list_accepts_malformed_date :
    App.list_images envAllOk emptyAws ⟨some "not-a-date", none, none, none⟩ =
      .ok 200 [] := by decide

/-- Witness for C5 at concrete inputs for all three conjuncts. -/
theorem list_date_validation_amended_witness :
    (Server.list_images (fun _ => none) (FState.mk [] [])
        ⟨some "bad", none, none, none⟩ =
      .err 400 "Invalid date_from format. Use ISO format.") ∧
    (Server.list_images (fun _ => none) (FState.mk [] [])
        ⟨none, some "bad", none, none⟩ =
      .err 400 "Invalid date_to format. Use ISO format.") ∧
    (∃ res, App.list_images envAllOk emptyAws ⟨none, none, none, none⟩ =
      .ok 200 res) :=
  ⟨list_date_validation_amended.1 (fun _ => none) (FState.mk [] [])
      ⟨some "bad", none, none, none⟩ "bad" rfl (by decide) rfl,
   list_date_validation_amended.2.1 (fun _ => none) (FState.mk [] [])
      ⟨none, some "bad", none, none⟩ "bad" rfl (by decide) rfl
      (fun h => absurd h (by decide)),
   list_date_validation_amended.2.2 envAllOk emptyAws ⟨none, none, none, none⟩⟩

/-- C6: deleting an id with no record answers `NotFound` (404), never
success, in both variants (for the blocking variant, with the point read
available).  For an existing record the blob/file delete happens first and
its failure is only logged (processing continues, and the success response
is still returned); a failing metadata-record delete yields the 500
`DeleteFailed` error with the record still present (and the blob/file
already removed when its delete succeeded); a successful delete answers
the confirmation message carrying the id, removes the record, leaves the
blob untouched if the blob delete failed, and a second delete of the same
id answers `NotFound`. -/
theorem delete_semantics :
    (∀ (env : AwsEnv) (st : AwsState) (image_id : String),
      env.ddbGetOk = true →
      (Aws.get_item env st image_id = none →
        App.delete_image env st image_id = (st, .err 404 "Image not found")) ∧
      (∀ it, Aws.get_item env st image_id = some it →
        (env.ddbDeleteOk = false →
          ∃ st', App.delete_image env st image_id =
              (st', .err 500 "Failed to delete image metadata") ∧
            st'.ddb = st.ddb ∧
            (env.s3DeleteOk = true → ∀ o ∈ st'.s3, o.key ≠ it.s3_key)) ∧
        (env.ddbDeleteOk = true →
          ∃ st', App.delete_image env st image_id =
              (st', .ok 200 ⟨"Image deleted successfully", image_id⟩) ∧
            (∀ j ∈ st'.ddb, j.id ≠ image_id) ∧
            (env.s3DeleteOk = false → st'.s3 = st.s3) ∧
            App.delete_image env st' image_id =
              (st', .err 404 "Image not found")))) ∧
    (∀ (unlinkOk deleteOk : Bool) (st : FState) (image_id : String),
      (st.db.find? (fun d => d.id == image_id) = none →
        Server.delete_image unlinkOk deleteOk st image_id =
          (st, .err 404 "Image not found")) ∧
      (∀ d, st.db.find? (fun x => x.id == image_id) = some d →
        (deleteOk = false →
          ∃ st', Server.delete_image unlinkOk deleteOk st image_id =
              (st', .err 500 "Failed to delete image from database") ∧
            st'.db = st.db ∧
            (unlinkOk = true →
              st'.files.find? (fun p => p.1 == d.file_path) = none) ∧
            (unlinkOk = false → st'.files = st.files)) ∧
        (deleteOk = true →
          ∃ st', Server.delete_image unlinkOk deleteOk st image_id =
              (st', .ok 200 ⟨"Image deleted successfully", image_id⟩) ∧
            (∀ j ∈ st'.db, j.id ≠ image_id) ∧
            (unlinkOk = false → st'.files = st.files) ∧
            Server.delete_image unlinkOk deleteOk st' image_id =
              (st', .err 404 "Image not found")))) := by
  constructor
  · intro env st image_id hget
    constructor
    · intro h
      simp [App.delete_image, h]
    · intro it hit
      constructor
      · intro hdel
        refine ⟨(Aws.delete_from_s3 env st it.s3_key).1, ?_, ?_, ?_⟩
        · simp [App.delete_image, hit, Aws.delete_item, hdel]
        · cases hs3 : env.s3DeleteOk <;> simp [Aws.delete_from_s3, hs3]
        · intro h o ho
          simp only [Aws.delete_from_s3, h, if_true] at ho
          simp only [List.mem_filter] at ho
          simpa using ho.2
      · intro hdel
        refine ⟨⟨(Aws.delete_from_s3 env st it.s3_key).1.s3,
          (Aws.delete_from_s3 env st it.s3_key).1.ddb.filter
            (fun i => i.id != image_id)⟩, ?_, ?_, ?_, ?_⟩
        · simp [App.delete_image, hit, Aws.delete_item, hdel]
        · intro j hj
          simp only [List.mem_filter] at hj
          simpa using hj.2
        · intro h
          simp [Aws.delete_from_s3, h]
        · have hnone : Aws.get_item env
              ⟨(Aws.delete_from_s3 env st it.s3_key).1.s3,
                (Aws.delete_from_s3 env st it.s3_key).1.ddb.filter
                  (fun i => i.id != image_id)⟩ image_id = none := by
            simp only [Aws.get_item, hget, if_true]
            rw [List.find?_eq_none]
            intro j hj
            simp only [List.mem_filter] at hj
            simpa using hj.2
          simp [App.delete_image, hnone]
  · intro unlinkOk deleteOk st image_id
    constructor
    · intro h
      simp [Server.delete_image, h]
    · intro d hd
      constructor
      · intro hdel
        cases hf : st.files.find? (fun p => p.1 == d.file_path) with
        | none =>
          refine ⟨st, ?_, rfl, ?_, fun _ => rfl⟩
          · simp [Server.delete_image, hd, hf, hdel]
          · intro _
            exact hf
        | some e =>
          cases hu : unlinkOk with
          | true =>
            refine ⟨⟨st.files.filter (fun p => p.1 != d.file_path), st.db⟩,
              ?_, rfl, ?_, ?_⟩
            · simp [Server.delete_image, hd, hf, hdel]
            · intro _
              rw [List.find?_eq_none]
              intro p hp
              simp only [List.mem_filter] at hp
              simpa using hp.2
            · intro h
              exact Bool.noConfusion h
          | false =>
            refine ⟨st, ?_, rfl, ?_, fun _ => rfl⟩
            · simp [Server.delete_image, hd, hf, hdel]
            · intro h
              exact Bool.noConfusion h
      · intro hdel
        have redelete : ∀ (u k : Bool) (files : List (String × Bytes)),
            Server.delete_image u k
              ⟨files, st.db.filter (fun x => x.id != image_id)⟩ image_id =
              (⟨files, st.db.filter (fun x => x.id != image_id)⟩,
                .err 404 "Image not found") := by
          intro u k files
          have hnone : (st.db.filter (fun x => x.id != image_id)).find?
              (fun x => x.id == image_id) = none := by
            rw [List.find?_eq_none]
            intro j hj
            simp only [List.mem_filter] at hj
            simpa using hj.2
          simp [Server.delete_image, hnone]
        cases hf : st.files.find? (fun p => p.1 == d.file_path) with
        | none =>
          refine ⟨⟨st.files, st.db.filter (fun x => x.id != image_id)⟩,
            ?_, ?_, fun _ => rfl, redelete _ _ st.files⟩
          · simp [Server.delete_image, hd, hf, hdel]
          · intro j hj
            simp only [List.mem_filter] at hj
            simpa using hj.2
        | some e =>
          cases hu : unlinkOk with
          | true =>
            refine ⟨⟨st.files.filter (fun p => p.1 != d.file_path),
              st.db.filter (fun x => x.id != image_id)⟩,
              ?_, ?_, ?_, redelete _ _ _⟩
            · simp [Server.delete_image, hd, hf, hdel]
            · intro j hj
              simp only [List.mem_filter] at hj
              simpa using hj.2
            · intro h
              exact Bool.noConfusion h
          | false =>
            refine ⟨⟨st.files, st.db.filter (fun x => x.id != image_id)⟩,
              ?_, ?_, fun _ => rfl, redelete _ _ st.files⟩
            · simp [Server.delete_image, hd, hf, hdel]
            · intro j hj
              simp only [List.mem_filter] at hj
              simpa using hj.2

/-- Witness for C6 in both variants: deleting a missing id, deleting with
a failing metadata-record delete, and a successful delete followed by a
repeat delete. -/
theorem delete_semantics_witness :
    (App.delete_image envAllOk emptyAws "nope" =
      (emptyAws, .err 404 "Image not found")) ∧
    (∃ st', App.delete_image envNoDdbDel (AwsState.mk
        [⟨"id0.png", [1, 2], "image/png"⟩] [demoItem]) "id0" =
        (st', .err 500 "Failed to delete image metadata") ∧
      st'.ddb = (AwsState.mk [⟨"id0.png", [1, 2], "image/png"⟩]
        [demoItem]).ddb ∧
      (envNoDdbDel.s3DeleteOk = true →
        ∀ o ∈ st'.s3, o.key ≠ demoItem.s3_key)) ∧
    (∃ st', App.delete_image envAllOk (AwsState.mk
        [⟨"id0.png", [1, 2], "image/png"⟩] [demoItem]) "id0" =
        (st', .ok 200 ⟨"Image deleted successfully", "id0"⟩) ∧
      (∀ j ∈ st'.ddb, j.id ≠ "id0") ∧
      (envAllOk.s3DeleteOk = false → st'.s3 = (AwsState.mk
        [⟨"id0.png", [1, 2], "image/png"⟩] [demoItem]).s3) ∧
      App.delete_image envAllOk st' "id0" =
        (st', .err 404 "Image not found")) ∧
    (Server.delete_image true true (FState.mk [] []) "nope" =
      (FState.mk [] [], .err 404 "Image not found")) ∧
    (∃ st', Server.delete_image true false
        (FState.mk [("uploads/f0.png", [7])] [demoFDoc]) "m0" =
        (st', .err 500 "Failed to delete image from database") ∧
      st'.db = (FState.mk [("uploads/f0.png", [7])] [demoFDoc]).db ∧
      (true = true →
        st'.files.find? (fun p => p.1 == demoFDoc.file_path) = none) ∧
      (true = false →
        st'.files = (FState.mk [("uploads/f0.png", [7])] [demoFDoc]).files)) ∧
    (∃ st', Server.delete_image true true
        (FState.mk [("uploads/f0.png", [7])] [demoFDoc]) "m0" =
        (st', .ok 200 ⟨"Image deleted successfully", "m0"⟩) ∧
      (∀ j ∈ st'.db, j.id ≠ "m0") ∧
      (true = false →
        st'.files = (FState.mk [("uploads/f0.png", [7])] [demoFDoc]).files) ∧
      Server.delete_image true true st' "m0" =
        (st', .err 404 "Image not found")) :=
  ⟨(delete_semantics.1 envAllOk emptyAws "nope" rfl).1 rfl,
   ((delete_semantics.1 envNoDdbDel
      ⟨[⟨"id0.png", [1, 2], "image/png"⟩], [demoItem]⟩ "id0" rfl).2
      demoItem (by decide)).1 rfl,
   ((delete_semantics.1 envAllOk
      ⟨[⟨"id0.png", [1, 2], "image/png"⟩], [demoItem]⟩ "id0" rfl).2
      demoItem (by decide)).2 rfl,
   (delete_semantics.2 true true (FState.mk [] []) "nope").1 rfl,
   ((delete_semantics.2 true false
      (FState.mk [("uploads/f0.png", [7])] [demoFDoc]) "m0").2
      demoFDoc (by decide)).1 rfl,
   ((delete_semantics.2 true true
      (FState.mk [("uploads/f0.png", [7])] [demoFDoc]) "m0").2
      demoFDoc (by decide)).2 rfl⟩

/-- Characterization of a successful blocking-variant upload: the final
state holds the new blob (under the derived key, with the declared content
type) at the head of the blob store and the new record at the head of the
metadata store. -/
theorem upload_ok_inv (env : AwsEnv) (image_id upload_date : String)
    (st : AwsState) (form : UploadForm) (st' : AwsState)
    (resp : UploadResponse)
    (heq : App.upload_image env image_id upload_date st form =
      (st', .ok 201 resp)) :
    ∃ file ct uploader, form.file = some file ∧
      file.contentType = some ct ∧ form.uploader = some uploader ∧
      st' = ⟨⟨image_id ++ "." ++ file_extension file.filename, file.content,
          ct⟩ :: st.s3.filter (fun o => o.key != image_id ++ "." ++
            file_extension file.filename),
        ⟨image_id, file.filename,
          image_id ++ "." ++ file_extension file.filename,
          file.content.length, ct, uploader, parse_tags (form.tags.getD ""),
          form.description, upload_date⟩ ::
            st.ddb.filter (fun i => i.id != image_id)⟩ ∧
      resp = ⟨image_id, file.filename, file.content.length, ct, uploader,
        parse_tags (form.tags.getD ""), form.description, upload_date,
        "/api/images/" ++ image_id ++ "/file"⟩ := by
  unfold App.upload_image at heq
  cases hfile : form.file with
  | none => rw [hfile] at heq; simp at heq
  | some file =>
    rw [hfile] at heq
    simp only at heq
    by_cases hfn : file.filename = ""
    · simp [hfn] at heq
    · simp only [if_neg hfn] at heq
      cases hct : file.contentType with
      | none => rw [hct] at heq; simp at heq
      | some ct =>
        rw [hct] at heq
        simp only at heq
        cases hsw : pyStartsWith ct "image/" with
        | false => simp [hsw] at heq
        | true =>
          simp only [hsw, Bool.not_true, Bool.false_eq_true, if_false] at heq
          cases hupl : form.uploader with
          | none => rw [hupl] at heq; simp at heq
          | some up =>
            rw [hupl] at heq
            simp only at heq
            by_cases hupe : up = ""
            · simp [hupe] at heq
            · simp only [if_neg hupe] at heq
              cases hs3 : env.s3PutOk with
              | false => simp [Aws.upload_to_s3, hs3] at heq
              | true =>
                simp only [Aws.upload_to_s3, hs3, if_true] at heq
                cases hput : env.ddbPutOk with
                | false => simp [Aws.put_item, hput] at heq
                | true =>
                  simp only [Aws.put_item, hput, if_true, Bool.not_true,
                    Bool.false_eq_true, if_false, Prod.mk.injEq,
                    Resp.ok.injEq, true_and] at heq
                  exact ⟨file, ct, up, rfl, hct, rfl, heq.1.symm, heq.2.symm⟩

/-- C7 (amended): in both variants a download of an id with no record is
`NotFound` (404).  In the blocking variant a failed blob read yields the
500 `DownloadFailed` error, and a successful read of non-empty bytes is
served with the blob store's recorded content type (which upload sets to
the record's declared `file_type`), the original filename as download
name, and inline disposition.  In the async variant a record whose file is
missing on disk yields `NotFound` (404), not a 500, and a present file is
served with a media type guessed from the path (not the record's stored
type) and the original filename. -/
theorem download_semantics_amended :
    (∀ (env : AwsEnv) (st : AwsState) (image_id : String),
      Aws.get_item env st image_id = none →
      App.download_image env st image_id = .err 404 "Image not found") ∧
    (∀ (guess : String → Option String) (st : FState) (image_id : String),
      st.db.find? (fun d => d.id == image_id) = none →
      Server.download_image guess st image_id =
        .err 404 "Image not found") ∧
    (∀ (env : AwsEnv) (st : AwsState) (image_id : String) (it : Item),
      Aws.get_item env st image_id = some it →
      Aws.download_from_s3 env st it.s3_key = (none, none) →
      App.download_image env st image_id =
        .err 500 "Failed to download image from S3") ∧
    (∀ (guess : String → Option String) (st : FState) (image_id : String)
      (d : FDoc), st.db.find? (fun x => x.id == image_id) = some d →
      st.files.find? (fun p => p.1 == d.file_path) = none →
      Server.download_image guess st image_id =
        .err 404 "Image file not found on disk") ∧
    (∀ (env : AwsEnv) (st : AwsState) (image_id : String) (it : Item)
      (data : Bytes) (ct : String),
      Aws.get_item env st image_id = some it →
      Aws.download_from_s3 env st it.s3_key = (some data, some ct) →
      data ≠ [] →
      App.download_image env st image_id =
        .ok 200 ⟨data, ct, false, it.filename⟩) ∧
    (∀ (env : AwsEnv) (image_id upload_date : String) (st : AwsState)
      (form : UploadForm) (st' : AwsState) (resp : UploadResponse),
      App.upload_image env image_id upload_date st form = (st', .ok 201 resp) →
      ∃ it ∈ st'.ddb, it.id = image_id ∧
        ∃ o ∈ st'.s3, o.key = it.s3_key ∧ o.contentType = it.file_type) ∧
    (∀ (guess : String → Option String) (st : FState) (image_id : String)
      (d : FDoc) (entry : String × Bytes),
      st.db.find? (fun x => x.id == image_id) = some d →
      st.files.find? (fun p => p.1 == d.file_path) = some entry →
      Server.download_image guess st image_id =
        .ok 200 ⟨d.file_path, entry.2,
          (guess d.file_path).getD "application/octet-stream", d.filename⟩) := by
  refine ⟨?_, ?_, ?_, ?_, ?_, ?_, ?_⟩
  · intro env st image_id h
    simp [App.download_image, h]
  · intro guess st image_id h
    simp [Server.download_image, h]
  · intro env st image_id it hit hdl
    simp [App.download_image, hit, hdl]
  · intro guess st image_id d hd hf
    simp [Server.download_image, hd, hf]
  · intro env st image_id it data ct hit hdl hne
    cases data with
    | nil => exact absurd rfl hne
    | cons a as => simp [App.download_image, hit, hdl]
  · intro env image_id upload_date st form st' resp heq
    obtain ⟨file, ct, uploader, -, -, -, hst, -⟩ :=
      upload_ok_inv env image_id upload_date st form st' resp heq
    subst hst
    exact ⟨_, List.mem_cons_self _ _, rfl, _, List.mem_cons_self _ _, rfl, rfl⟩
  · intro guess st image_id d entry hd hf
    simp [Server.download_image, hd, hf]

/-- Counterexample to C7 as stated: in the async variant, a download whose
record exists but whose file is missing on disk is answered with a 404,
not with the claimed 500 server error. -/
theorem server_download_missing_file_404 :
    Server.download_image (fun _ => none) ⟨[], [demoFDoc]⟩ "m0" =
      .err 404 "Image file not found on disk" := by decide

/-- Witness for C7 exercising every conjunct at concrete stores. -/
theorem download_semantics_amended_witness :
    (App.download_image envAllOk emptyAws "nope" =
      .err 404 "Image not found") ∧
    (Server.download_image (fun _ => none) (FState.mk [] []) "nope" =
      .err 404 "Image not found") ∧
    (App.download_image envNoS3Get (AwsState.mk [] [demoItem]) "id0" =
      .err 500 "Failed to download image from S3") ∧
    (Server.download_image (fun _ => none) (FState.mk [] [demoFDoc]) "m0" =
      .err 404 "Image file not found on disk") ∧
    (App.download_image envAllOk
        (AwsState.mk [⟨"id0.png", [1, 2], "image/png"⟩] [demoItem]) "id0" =
      .ok 200 ⟨[1, 2], "image/png", false, demoItem.filename⟩) ∧
    (∃ it ∈ (AwsState.mk [⟨"id0.png", [1, 2], "image/png"⟩]
        [demoItem]).ddb, it.id = "id0" ∧
      ∃ o ∈ (AwsState.mk [⟨"id0.png", [1, 2], "image/png"⟩]
        [demoItem]).s3, o.key = it.s3_key ∧ o.contentType = it.file_type) ∧
    (Server.download_image (fun _ => some "image/png")
        (FState.mk [("uploads/f0.png", [7])] [demoFDoc]) "m0" =
      .ok 200 ⟨demoFDoc.file_path, ("uploads/f0.png", ([7] : Bytes)).2,
        ((fun _ => some "image/png") demoFDoc.file_path).getD
          "application/octet-stream", demoFDoc.filename⟩) :=
  ⟨download_semantics_amended.1 envAllOk emptyAws "nope" rfl,
   download_semantics_amended.2.1 (fun _ => none) (FState.mk [] []) "nope" rfl,
   download_semantics_amended.2.2.1 envNoS3Get (AwsState.mk [] [demoItem])
      "id0" demoItem (by decide) rfl,
   download_semantics_amended.2.2.2.1 (fun _ => none)
      (FState.mk [] [demoFDoc]) "m0" demoFDoc (by decide) rfl,
   download_semantics_amended.2.2.2.2.1 envAllOk
      (AwsState.mk [⟨"id0.png", [1, 2], "image/png"⟩] [demoItem]) "id0"
      demoItem [1, 2] "image/png" (by decide) (by decide) (by decide),
   download_semantics_amended.2.2.2.2.2.1 envAllOk "id0" "T1" emptyAws
      demoForm (AwsState.mk [⟨"id0.png", [1, 2], "image/png"⟩] [demoItem])
      ⟨"id0", "a.png", 2, "image/png", "U", ["a", "b", "c"], some "d", "T1",
        "/api/images/id0/file"⟩ (by decide),
   download_semantics_amended.2.2.2.2.2.2 (fun _ => some "image/png")
      (FState.mk [("uploads/f0.png", [7])] [demoFDoc]) "m0" demoFDoc
      ("uploads/f0.png", [7]) (by decide) (by decide)⟩

/-- C8 (code-bug evaluation): a fully valid zero-byte upload is accepted
with a 201 created response, and the subsequent blob read succeeds and
returns the empty byte string with the `image/png` content type — yet the
download handler answers the 500 `DownloadFailed` error, because its
`if not file_data:` guard is falsy for the empty byte string as well as
for a failed (`None`) read.  For non-empty content the round trip returns
the uploaded bytes unchanged with the declared `image/` content type. -/
theorem download_empty_upload_roundtrip_bug :
    (App.upload_image envAllOk "id0" "T1" emptyAws
        ⟨some ⟨"a.png", some "image/png", []⟩, some "U", none, none⟩).2 =
      .ok 201 ⟨"id0", "a.png", 0, "image/png", "U", [], none, "T1",
        "/api/images/id0/file"⟩ ∧
    Aws.download_from_s3 envAllOk
      (App.upload_image envAllOk "id0" "T1" emptyAws
        ⟨some ⟨"a.png", some "image/png", []⟩, some "U", none, none⟩).1
      "id0.png" = (some [], some "image/png") ∧
    App.download_image envAllOk
      (App.upload_image envAllOk "id0" "T1" emptyAws
        ⟨some ⟨"a.png", some "image/png", []⟩, some "U", none, none⟩).1
      "id0" = .err 500 "Failed to download image from S3" ∧
    App.download_image envAllOk
      (App.upload_image envAllOk "id0" "T1" emptyAws demoForm).1 "id0" =
      .ok 200 ⟨demoFile.content, "image/png", false, "a.png"⟩ ∧
    pyStartsWith "image/png" "image/" = true := by decide

/-- C9 (amended): the blocking variant's upload response and every async
response expose no storage key (`s3_key` / `file_path`) and carry only the
synthesized `/api/images/{id}/file` URL; but the blocking variant's
get-metadata and list endpoints return the stored record verbatim plus the
URL, so those responses do include the `s3_key` field. -/
theorem response_key_exposure_amended :
    (∀ (env : AwsEnv) (image_id upload_date : String) (st : AwsState)
      (form : UploadForm) (st' : AwsState) (resp : UploadResponse),
      App.upload_image env image_id upload_date st form = (st', .ok 201 resp) →
      "s3_key" ∉ (upload_response_json resp).keys ∧
      resp.url = "/api/images/" ++ image_id ++ "/file") ∧
    (∀ (env : AwsEnv) (st : AwsState) (image_id : String) (it : Item)
      (u : String), App.get_image env st image_id = .ok 200 (it, u) →
      "s3_key" ∈ (item_with_url_json it u).keys ∧
      u = "/api/images/" ++ image_id ++ "/file") ∧
    (∀ (env : AwsEnv) (st : AwsState) (q : ListQuery)
      (res : List (Item × String)), App.list_images env st q = .ok 200 res →
      ∀ p ∈ res, "s3_key" ∈ (item_with_url_json p.1 p.2).keys ∧
        p.2 = item_url p.1) ∧
    (∀ r : FResponse, "file_path" ∉ (fresponse_json r).keys ∧
      "s3_key" ∉ (fresponse_json r).keys) := by
  refine ⟨?_, ?_, ?_, ?_⟩
  · intro env image_id upload_date st form st' resp heq
    obtain ⟨file, ct, uploader, -, -, -, -, hresp⟩ :=
      upload_ok_inv env image_id upload_date st form st' resp heq
    subst hresp
    exact ⟨by simp [upload_response_json, Json.keys], rfl⟩
  · intro env st image_id it u heq
    unfold App.get_image at heq
    cases hg : Aws.get_item env st image_id with
    | none => rw [hg] at heq; simp at heq
    | some item =>
      rw [hg] at heq
      simp only [Resp.ok.injEq, Prod.mk.injEq, true_and] at heq
      obtain ⟨-, hu⟩ := heq
      exact ⟨by simp [item_with_url_json, Json.keys], hu.symm⟩
  · intro env st q res heq
    unfold App.list_images at heq
    simp only [Resp.ok.injEq, true_and] at heq
    subst heq
    intro p hp
    rcases List.mem_map.mp hp with ⟨it, -, rfl⟩
    exact ⟨by simp [item_with_url_json, Json.keys], rfl⟩
  · intro r
    exact ⟨by simp [fresponse_json, Json.keys],
      by simp [fresponse_json, Json.keys]⟩

/-- Counterexample to C9 as stated: the blocking variant's get-metadata
response for a stored record is the record itself (plus the URL), whose
serialization contains the `s3_key` storage key. -/
theorem get_response_contains_s3_key :
    App.get_image envAllOk (AwsState.mk [] [demoItem]) "id0" =
      .ok 200 (demoItem, "/api/images/id0/file") ∧
    "s3_key" ∈ (item_with_url_json demoItem "/api/images/id0/file").keys := by
  exact ⟨by decide, by decide⟩

/-- Witness for C9 at concrete runs of all four conjuncts. -/
theorem response_key_exposure_amended_witness :
    ("s3_key" ∉ (upload_response_json ⟨"id0", "a.png", 2, "image/png", "U",
        ["a", "b", "c"], some "d", "T1", "/api/images/id0/file"⟩).keys ∧
      UploadResponse.url ⟨"id0", "a.png", 2, "image/png", "U",
        ["a", "b", "c"], some "d", "T1", "/api/images/id0/file"⟩ =
        "/api/images/" ++ "id0" ++ "/file") ∧
    ("s3_key" ∈ (item_with_url_json demoItem "/api/images/id0/file").keys ∧
      "/api/images/id0/file" = "/api/images/" ++ "id0" ++ "/file") ∧
    (∀ p ∈ [(demoItem, item_url demoItem)],
      "s3_key" ∈ (item_with_url_json p.1 p.2).keys ∧ p.2 = item_url p.1) ∧
    ("file_path" ∉ (fresponse_json (fdoc_response demoFDoc)).keys ∧
      "s3_key" ∉ (fresponse_json (fdoc_response demoFDoc)).keys) :=
  ⟨response_key_exposure_amended.1 envAllOk "id0" "T1" emptyAws demoForm
      (AwsState.mk [⟨"id0.png", [1, 2], "image/png"⟩] [demoItem])
      ⟨"id0", "a.png", 2, "image/png", "U", ["a", "b", "c"], some "d", "T1",
        "/api/images/id0/file"⟩ (by decide),
   response_key_exposure_amended.2.1 envAllOk (AwsState.mk [] [demoItem])
      "id0" demoItem "/api/images/id0/file" (by decide),
   response_key_exposure_amended.2.2.1 envAllOk (AwsState.mk [] [demoItem])
      ⟨none, none, none, none⟩ [(demoItem, item_url demoItem)] (by decide),
   response_key_exposure_amended.2.2.2 (fdoc_response demoFDoc)⟩

/-- C10: in the blocking variant, the metadata lookup helper returns
`None` both when the point read fails and when no record has the id; as a
consequence, while the metadata-store read is failing, get, download and
delete all answer `NotFound` (404) rather than a server error. -/
theorem metadata_read_failure_notfound :
    (∀ (env : AwsEnv) (st : AwsState) (image_id : String),
      env.ddbGetOk = false →
      Aws.get_item env st image_id = none ∧
      App.get_image env st image_id = .err 404 "Image not found" ∧
      App.download_image env st image_id = .err 404 "Image not found" ∧
      App.delete_image env st image_id = (st, .err 404 "Image not found")) ∧
    (∀ (env : AwsEnv) (st : AwsState) (image_id : String),
      env.ddbGetOk = true → st.ddb.find? (fun i => i.id == image_id) = none →
      Aws.get_item env st image_id = none) := by
  constructor
  · intro env st image_id h
    have hg : Aws.get_item env st image_id = none := by
      simp [Aws.get_item, h]
    exact ⟨hg, by simp [App.get_image, hg], by simp [App.download_image, hg],
      by simp [App.delete_image, hg]⟩
  · intro env st image_id h hf
    simp [Aws.get_item, h, hf]

/-- Witness for C10: a store that does hold the record, read through a
failing metadata store, and a successful read of an absent id. -/
theorem metadata_read_failure_notfound_witness :
    (Aws.get_item envNoDdbGet (AwsState.mk [] [demoItem]) "id0" = none ∧
      App.get_image envNoDdbGet (AwsState.mk [] [demoItem]) "id0" =
        .err 404 "Image not found" ∧
      App.download_image envNoDdbGet (AwsState.mk [] [demoItem]) "id0" =
        .err 404 "Image not found" ∧
      App.delete_image envNoDdbGet (AwsState.mk [] [demoItem]) "id0" =
        (AwsState.mk [] [demoItem], .err 404 "Image not found")) ∧
    Aws.get_item envAllOk emptyAws "nope" = none :=
  ⟨metadata_read_failure_notfound.1 envNoDdbGet (AwsState.mk [] [demoItem])
      "id0" rfl,
   metadata_read_failure_notfound.2 envAllOk emptyAws "nope" rfl rfl⟩

end Gallery
